import Mathlib

/-!
# Verification of the connection-client reconciliation core of terraform-provider-auth0

This file is a shallow embedding of the read-modify-write reconciliation
protocol for the `auth0_connection_client` resource (the handlers
`createConnectionClient`, `readConnectionClient`, `deleteConnectionClient`),
of the state-migration function `connectionSchemaUpgradeV0`, and of the
connection sweeper loop, together with proofs of the specified properties.

The remote Auth0 Management API is an external collaborator: each handler is
parametrized by the responses the remote returns to its calls, and handlers
additionally produce a trace of the externally visible events (lock
operations, remote reads, remote writes) in the order dictated by the Go
source, including the `defer`-based unlock which runs after the whole
function body (also after a tail call such as the read-confirmation pass).
-/

/-- Errors surfaced by the management API client.  The Go code distinguishes
`management.Error` values (which carry an HTTP status) from any other error;
`readConnectionClient` and `deleteConnectionClient` test for a management
error with status 404 (`http.StatusNotFound`). -/
inductive ApiError
  | management (status : Nat)
  | transport
deriving DecidableEq, Repr

/-- True exactly when the error is a `management.Error` whose `Status()`
equals `http.StatusNotFound` (404), the condition tested in the source. -/
def ApiError.isNotFound : ApiError → Bool
  | ApiError.management status => status == 404
  | ApiError.transport => false

/-- The fields of `management.Connection` used by the handlers:
`GetName()`, `GetStrategy()` and `GetEnabledClients()`. -/
structure Connection where
  name : String
  strategy : String
  enabledClients : List String
deriving DecidableEq, Repr

/-- The slice of `*schema.ResourceData` the handlers touch: the two required
arguments, the resource id (`d.Id()` / `d.SetId`), and the two computed
attributes written by `d.Set`. -/
structure ResourceData where
  connectionID : String
  clientID : String
  id : String
  name : String
  strategy : String
deriving DecidableEq, Repr

/-- Externally visible events of one handler run, in program order. -/
inductive Event
  | lock (key : String)
  | unlock (key : String)
  | apiRead (id : String)
  | apiUpdate (id : String) (clients : List String)
deriving DecidableEq, Repr

/-- The lists written by `api.Connection.Update` calls in a trace. -/
def updatedLists (evs : List Event) : List (List String) :=
  evs.filterMap fun e =>
    match e with
    | Event.apiUpdate _ clients => some clients
    | _ => none

/-- The reads performed by `api.Connection.Read` calls in a trace. -/
def readEvents (evs : List Event) : List String :=
  evs.filterMap fun e =>
    match e with
    | Event.apiRead id => some id
    | _ => none

/-- Embedding of `readConnectionClient` (src/unnamed/part_001, lines 208-240).
`readResp` is the response of the single `api.Connection.Read` call.  The
returned `Option ApiError` models the diagnostics: `none` is an empty
diagnostics (success).  On a 404 management error, or when the client id is
not among the enabled clients, the resource id is cleared and the call
succeeds; on any other error the error is returned; otherwise the `name` and
`strategy` attributes are set from the connection. -/
def readConnectionClient (data : ResourceData)
    (readResp : Except ApiError Connection) :
    ResourceData × Option ApiError × List Event :=
  match readResp with
  | Except.error e =>
    if e.isNotFound then
      ({ data with id := "" }, none, [Event.apiRead data.connectionID])
    else
      (data, some e, [Event.apiRead data.connectionID])
  | Except.ok connection =>
    let found := connection.enabledClients.any fun enabledClientID =>
      enabledClientID == data.clientID
    if !found then
      ({ data with id := "" }, none, [Event.apiRead data.connectionID])
    else
      ({ data with name := connection.name, strategy := connection.strategy },
        none, [Event.apiRead data.connectionID])

/-- Embedding of `createConnectionClient` (src/unnamed/part_001, lines
180-206).  `uid` models the value of `resource.UniqueId()` (always a
non-empty fresh string in Go).  `readResp` is the response of the handler's
own `api.Connection.Read`; `updateResp` maps the written list to the outcome
of `api.Connection.Update`; `confirmReadResp` is the response of the
`api.Connection.Read` performed by the tail call to `readConnectionClient`.
The trace starts with the lock acquisition and ends with the deferred
unlock, which in Go runs after the tail call returns. -/
def createConnectionClient (uid : String) (data : ResourceData)
    (readResp : Except ApiError Connection)
    (updateResp : List String → Option ApiError)
    (confirmReadResp : Except ApiError Connection) :
    ResourceData × Option ApiError × List Event :=
  let body : ResourceData × Option ApiError × List Event :=
    match readResp with
    | Except.error e => (data, some e, [Event.apiRead data.connectionID])
    | Except.ok connection =>
      let enabledClients := connection.enabledClients ++ [data.clientID]
      match updateResp enabledClients with
      | some e =>
        (data, some e,
          [Event.apiRead data.connectionID,
           Event.apiUpdate data.connectionID enabledClients])
      | none =>
        let confirmed := readConnectionClient { data with id := uid } confirmReadResp
        (confirmed.1, confirmed.2.1,
          [Event.apiRead data.connectionID,
           Event.apiUpdate data.connectionID enabledClients] ++ confirmed.2.2)
  (body.1, body.2.1,
    Event.lock data.connectionID :: body.2.2 ++ [Event.unlock data.connectionID])

/-- Embedding of `deleteConnectionClient` (src/unnamed/part_001, lines
242-281).  A 404 on the read, or a 404 on the write-back, clears the id and
succeeds; other errors are returned.  The written list is the fetched list
with every entry equal to `client_id` skipped (the loop `continue`s on
matches), preserving the order of the rest. -/
def deleteConnectionClient (data : ResourceData)
    (readResp : Except ApiError Connection)
    (updateResp : List String → Option ApiError) :
    ResourceData × Option ApiError × List Event :=
  let body : ResourceData × Option ApiError × List Event :=
    match readResp with
    | Except.error e =>
      if e.isNotFound then
        ({ data with id := "" }, none, [Event.apiRead data.connectionID])
      else
        (data, some e, [Event.apiRead data.connectionID])
    | Except.ok connection =>
      let enabledClients := connection.enabledClients.filter fun enabledClientID =>
        !(enabledClientID == data.clientID)
      match updateResp enabledClients with
      | some e =>
        if e.isNotFound then
          ({ data with id := "" }, none,
            [Event.apiRead data.connectionID,
             Event.apiUpdate data.connectionID enabledClients])
        else
          (data, some e,
            [Event.apiRead data.connectionID,
             Event.apiUpdate data.connectionID enabledClients])
      | none =>
        ({ data with id := "" }, none,
          [Event.apiRead data.connectionID,
           Event.apiUpdate data.connectionID enabledClients])
  (body.1, body.2.1,
    Event.lock data.connectionID :: body.2.2 ++ [Event.unlock data.connectionID])


/-- Modelled from the spec: the Cross-Resource Lock (package `internal/mutex`,
used by the handlers as `mutex.Global.Lock(connectionID)` /
`defer mutex.Global.Unlock(connectionID)`) is not among the files under the
source tree; only its callers are.  Per the spec it is a process-wide map
from opaque string keys to mutexes: `Lock(key)` blocks until no other thread
holds `key`, `Unlock(key)` releases it, and mutexes for distinct keys are
independent.  A reconciliation thread is modelled by its key and a program
counter: 0 waiting to acquire, 1 fetch, 2 modify, 3 write, 4 about to
release, 5 done. -/
structure LockThread where
  key : String
  pc : Nat
deriving DecidableEq, Repr

/-- Modelled from the spec: global system state — which thread (if any) holds
the mutex for each key, and the control state of every thread. -/
structure LockSysState where
  locks : String → Option Nat
  threads : Nat → LockThread

/-- Modelled from the spec: interleaving semantics of concurrent
reconciliations.  A thread acquires the lock for its key only when no thread
holds that key; it then performs its fetch, modify and write steps, and
finally releases the lock. -/
inductive LockStep : LockSysState → LockSysState → Prop
  | acquire (s : LockSysState) (i : Nat)
      (hpc : (s.threads i).pc = 0)
      (hfree : s.locks (s.threads i).key = none) :
      LockStep s
        { locks := fun k => if k = (s.threads i).key then some i else s.locks k,
          threads := fun j => if j = i then { s.threads i with pc := 1 } else s.threads j }
  | advance (s : LockSysState) (i : Nat)
      (h1 : 1 ≤ (s.threads i).pc) (h3 : (s.threads i).pc ≤ 3) :
      LockStep s
        { s with
          threads := fun j =>
            if j = i then { s.threads i with pc := (s.threads i).pc + 1 } else s.threads j }
  | release (s : LockSysState) (i : Nat)
      (hpc : (s.threads i).pc = 4) :
      LockStep s
        { locks := fun k => if k = (s.threads i).key then none else s.locks k,
          threads := fun j => if j = i then { s.threads i with pc := 5 } else s.threads j }

/-- Initial states: every thread is waiting to acquire, no key is held. -/
def LockInit (s : LockSysState) : Prop :=
  (∀ i, (s.threads i).pc = 0) ∧ (∀ k, s.locks k = none)

/-- A thread is inside its fetch-modify-write sequence. -/
def InCritical (t : LockThread) : Prop :=
  1 ≤ t.pc ∧ t.pc ≤ 3

/-- The inductive invariant: a thread between acquisition and release holds
the lock for its key. -/
def LockInv (s : LockSysState) : Prop :=
  ∀ i, 1 ≤ (s.threads i).pc → (s.threads i).pc ≤ 4 →
    s.locks ((s.threads i).key) = some i

/-- A concrete two-thread initial state used to exercise the lock model:
both threads contend for the key "conn". -/
def lockDemoInit : LockSysState :=
  { locks := fun _ => none,
    threads := fun _ => { key := "conn", pc := 0 } }

/-- The state of the demo system after thread 0 acquires the lock for
"conn" (the exact successor state produced by the acquire step). -/
def lockDemoAfter : LockSysState :=
  { locks := fun k => if k = (lockDemoInit.threads 0).key then some 0 else lockDemoInit.locks k,
    threads := fun j => if j = 0 then { lockDemoInit.threads 0 with pc := 1 } else lockDemoInit.threads j }

/-- Dynamic Go values (`interface\x7b\x7d`) as they occur in a Terraform raw
state map: strings, ints, slices, string-keyed maps, and anything else. -/
inductive GoValue
  | str (s : String)
  | int (n : Int)
  | list (xs : List GoValue)
  | map (m : List (String × GoValue))
  | other

/-- Association-list model of a Go `map[string]interface\x7b\x7d`: lookup of
a key (comma-ok form). -/
def goLookup (m : List (String × GoValue)) (k : String) : Option GoValue :=
  match m with
  | [] => none
  | p :: rest => if p.1 == k then some p.2 else goLookup rest k

/-- Assignment `m[k] = v` on a Go map: replaces the value of an existing key
in place, appends otherwise. -/
def goInsert (m : List (String × GoValue)) (k : String) (v : GoValue) :
    List (String × GoValue) :=
  match m with
  | [] => [(k, v)]
  | p :: rest => if p.1 == k then (k, v) :: rest else p :: goInsert rest k v

/-- All characters are decimal digits and there is at least one. -/
def decDigits? (cs : List Char) : Option Nat :=
  match cs with
  | [] => none
  | _ :: _ =>
    if cs.all (fun c => c.isDigit) then
      some (cs.foldl (fun acc c => acc * 10 + (c.toNat - 48)) 0)
    else none

/-- Embedding of Go `strconv.Atoi`: an optional sign followed by at least one
decimal digit, rejecting everything else, and failing with `ErrRange` when
the value does not fit a 64-bit `int`. -/
def atoi (s : String) : Option Int :=
  let cs := s.toList
  let signed : Bool × List Char :=
    match cs with
    | '-' :: rest => (true, rest)
    | '+' :: rest => (false, rest)
    | _ => (false, cs)
  match decDigits? signed.2 with
  | none => none
  | some n =>
    let v : Int := if signed.1 then -(n : Int) else (n : Int)
    if -(2 ^ 63) ≤ v ∧ v ≤ 2 ^ 63 - 1 then some v else none

/-- Embedding of `connectionSchemaUpgradeV0`
(src/internal/auth0/connection/schema.go, lines 798-835).  The result is
`none` when the Go function panics (the unchecked type assertion
`optionsList[0].(map[string]interface\x7b\x7d)` on a first element that is
not a map); otherwise it is the returned state together with the returned
error, which is `nil` on every return path.  When the first element is a map
carrying a string-valued `strategy_version`, that entry is set to the
`strconv.Atoi` parse of that string, or to `0` when the parse fails, and the
`options` key is rebound to the one-element list holding the updated map. -/
def connectionSchemaUpgradeV0 (state : List (String × GoValue)) :
    Option (List (String × GoValue) × Option String) :=
  match goLookup state "options" with
  | none => some (state, none)
  | some options =>
    match options with
    | GoValue.list (first :: _) =>
      match first with
      | GoValue.map m =>
        match goLookup m "strategy_version" with
        | none => some (state, none)
        | some strategyVersion =>
          match strategyVersion with
          | GoValue.str strategyVersionString =>
            let strategyVersionValue : Int :=
              match atoi strategyVersionString with
              | some strategyVersionInt => strategyVersionInt
              | none => 0
            let m2 := goInsert m "strategy_version" (GoValue.int strategyVersionValue)
            some (goInsert state "options" (GoValue.list [GoValue.map m2]), none)
          | _ => some (state, none)
      | _ => none
    | _ => some (state, none)

/-- The fields of a listed connection the sweeper uses: `GetID()` and
`GetName()`. -/
structure SweeperConnection where
  id : String
  name : String
deriving DecidableEq, Repr

/-- One page of `api.Connection.List`: the connections and the result of
`HasNext()`. -/
structure ConnectionList where
  connections : List SweeperConnection
  hasNext : Bool
deriving DecidableEq, Repr

/-- True when `needle` occurs as a contiguous substring of the character
list, the behavior of Go `strings.Contains`. -/
def charsContain (needle : List Char) : List Char → Bool
  | [] => needle.isPrefixOf ([] : List Char)
  | c :: rest => needle.isPrefixOf (c :: rest) || charsContain needle rest

/-- Go `strings.Contains(s, sub)`. -/
def strContains (s sub : String) : Bool :=
  charsContain sub.toList s.toList

/-- The inner loop of the sweeper over one page
(src/internal/sweep/connections.go, lines 33-43): for each connection whose
name contains "Test", `api.Connection.Delete` is called and its error
appended to the multierror (`multierror.Append` drops `nil` errors).
`deleteResp` gives the outcome of deleting each connection id.  Returns the
collected non-nil deletion errors and the ids whose deletion was attempted,
both in page order. -/
def sweepPage (deleteResp : String → Option ApiError) :
    List SweeperConnection → List ApiError × List String
  | [] => ([], [])
  | connection :: rest =>
    let tail := sweepPage deleteResp rest
    if strContains connection.name "Test" then
      match deleteResp connection.id with
      | some e => (e :: tail.1, connection.id :: tail.2)
      | none => (tail.1, connection.id :: tail.2)
    else tail

/-- The page loop of the sweeper (src/internal/sweep/connections.go, lines
22-50), with explicit fuel for the unbounded `for` loop: `none` means the
loop has not finished within `fuel` iterations.  A `List` error aborts the
sweep immediately with that error; otherwise deletion errors accumulate
across pages and the loop ends after the first page whose `HasNext()` is
false, returning the accumulated errors (the sweeper's `ErrorOrNil` result
is `nil` exactly when that list is empty).  The second component records
every connection id whose deletion was attempted. -/
def sweepLoop (listResp : Nat → Except ApiError ConnectionList)
    (deleteResp : String → Option ApiError) :
    Nat → Nat → List ApiError → List String →
    Option (Except ApiError (List ApiError) × List String)
  | 0, _, _, _ => none
  | fuel + 1, page, acc, deleted =>
    match listResp page with
    | Except.error e => some (Except.error e, deleted)
    | Except.ok connectionList =>
      let pageResult := sweepPage deleteResp connectionList.connections
      let acc2 := acc ++ pageResult.1
      let deleted2 := deleted ++ pageResult.2
      if connectionList.hasNext then
        sweepLoop listResp deleteResp fuel (page + 1) acc2 deleted2
      else
        some (Except.ok acc2, deleted2)

/-- The sweeper run from page 0 with empty accumulators. -/
def sweepConnections (listResp : Nat → Except ApiError ConnectionList)
    (deleteResp : String → Option ApiError) (fuel : Nat) :
    Option (Except ApiError (List ApiError) × List String) :=
  sweepLoop listResp deleteResp fuel 0 [] []

/-- A second demo state for the lock model: two threads with distinct keys. -/
def lockDemoDistinct : LockSysState :=
  { locks := fun _ => none,
    threads := fun n =>
      if n = 0 then { key := "connA", pc := 0 } else { key := "connB", pc := 0 } }

/-- Demo resource data: the membership fact ("conn1", "m"). -/
def dataDemo : ResourceData :=
  { connectionID := "conn1", clientID := "m", id := "old-id", name := "", strategy := "" }

/-- Demo remote connection whose enabled clients contain "m" twice. -/
def connDemo : Connection :=
  { name := "Conn One", strategy := "auth0", enabledClients := ["a", "m", "b", "m"] }

/-- Demo remote connection whose enabled clients do not contain "m". -/
def connDemoAbsent : Connection :=
  { name := "Conn One", strategy := "auth0", enabledClients := ["a", "b"] }

/-- The trace of the events of a handler run. -/
def runTrace (r : ResourceData × Option ApiError × List Event) : List Event :=
  r.2.2

/-- True when some remote read occurs strictly after the first unlock of
`key` in the trace: the shape the claim "the confirmation read executes
outside the lock" takes on a straight-line trace. -/
def readAfterUnlock (key : String) (evs : List Event) : Bool :=
  ((evs.dropWhile fun e => !(e == Event.unlock key)).drop 1).any fun e =>
    match e with
    | Event.apiRead _ => true
    | _ => false

/-- A state whose options list has a non-map first element — the input on
which the Go type assertion `optionsList[0].(map[string]interface\x7b\x7d)`
panics. -/
def c9PanicState : List (String × GoValue) :=
  [("options", GoValue.list [GoValue.str "oops"])]

/-- A state whose options list has two elements, the first a map with a
string `strategy_version`. -/
def c9TwoElemState : List (String × GoValue) :=
  [("options", GoValue.list
    [GoValue.map [("strategy_version", GoValue.str "3")],
     GoValue.map [("other_key", GoValue.int 1)]])]

/-- A state whose single options map carries a non-numeric
`strategy_version` string. -/
def c9BadNumState : List (String × GoValue) :=
  [("options", GoValue.list
    [GoValue.map [("strategy_version", GoValue.str "badnum")]])]

/-- Concatenated deletion errors of the first `k` pages starting at page
`p`, for page contents `cl`. -/
def sweepErrorsBefore (deleteResp : String → Option ApiError)
    (cl : Nat → ConnectionList) (p k : Nat) : List ApiError :=
  ((List.range k).map fun i => (sweepPage deleteResp (cl (p + i)).connections).1).flatten

/-- Concatenated attempted-deletion ids of the first `k` pages starting at
page `p`. -/
def sweepDeletedBefore (deleteResp : String → Option ApiError)
    (cl : Nat → ConnectionList) (p k : Nat) : List String :=
  ((List.range k).map fun i => (sweepPage deleteResp (cl (p + i)).connections).2).flatten

/-- Two demo listing pages for the sweeper: page 0 holds a matching and a
non-matching connection and has a next page; page 1 holds one matching
connection and is last. -/
def sweepDemoPages : Nat → ConnectionList := fun n =>
  if n = 0 then
    { connections := [{ id := "id1", name := "Test one" }, { id := "id2", name := "prod" }],
      hasNext := true }
  else
    { connections := [{ id := "id3", name := "ATestB" }], hasNext := false }

/-- Demo listing responses: every page listing succeeds. -/
def sweepDemoList : Nat → Except ApiError ConnectionList := fun n =>
  Except.ok (sweepDemoPages n)

/-- Demo deletion outcomes: deleting "id1" fails with a transport error,
every other deletion succeeds. -/
def sweepDemoDelete : String → Option ApiError := fun cid =>
  if cid = "id1" then some ApiError.transport else none

/-- Helper: the trace of `readConnectionClient` is always its single remote
read. -/
theorem readConnectionClient_trace (data : ResourceData)
    (resp : Except ApiError Connection) :
    (readConnectionClient data resp).2.2 = [Event.apiRead data.connectionID] := by
  cases resp with
  | error e =>
    by_cases h : e.isNotFound <;> simp [readConnectionClient, h]
  | ok connection =>
    by_cases h :
        (connection.enabledClients.any fun enabledClientID =>
          enabledClientID == data.clientID) = true <;>
      simp [readConnectionClient, h]

/-- C2: Whenever the fetch succeeds, `createConnectionClient` issues
exactly one write, whose list is the fetched enabled-clients list with
`client_id` appended: the fetched list is a prefix of the written list (all
pre-existing entries preserved in order), the multiplicity of `client_id`
grows by exactly one (so an already-present member occurs twice afterwards),
and the multiplicity of every other id is unchanged. -/
theorem createConnectionClient_appends_without_dedup (uid : String)
    (data : ResourceData) (conn : Connection)
    (updateResp : List String → Option ApiError)
    (confirmReadResp : Except ApiError Connection) :
    updatedLists
        (createConnectionClient uid data (Except.ok conn) updateResp confirmReadResp).2.2
      = [conn.enabledClients ++ [data.clientID]] ∧
    conn.enabledClients <+: conn.enabledClients ++ [data.clientID] ∧
    (conn.enabledClients ++ [data.clientID]).count data.clientID
      = conn.enabledClients.count data.clientID + 1 ∧
    ∀ x, x ≠ data.clientID →
      (conn.enabledClients ++ [data.clientID]).count x = conn.enabledClients.count x := by
  refine ⟨?_, ⟨[data.clientID], rfl⟩, ?_, ?_⟩
  · cases h : updateResp (conn.enabledClients ++ [data.clientID]) with
    | some e =>
      simp [createConnectionClient, h, updatedLists]
    | none =>
      simp [createConnectionClient, h, updatedLists, readConnectionClient_trace]
  · simp [List.count_append]
  · intro x hx
    simp [List.count_append, List.count_singleton]
    simp [List.count_cons, Ne.symm hx]

/-- C3: Whenever the fetch succeeds, `deleteConnectionClient` issues
exactly one write; the written list is an order-preserving sublist of the
fetched list, contains no occurrence of `client_id`, and keeps every other
id with unchanged multiplicity (so every duplicate of `client_id` is removed
as well).  On the concrete list `["a", "m", "b", "m"]`, removing `"m"`
writes back `["a", "b"]`. -/
theorem deleteConnectionClient_removes_all_occurrences :
    (∀ (data : ResourceData) (conn : Connection)
        (updateResp : List String → Option ApiError),
      ∃ L, updatedLists (deleteConnectionClient data (Except.ok conn) updateResp).2.2 = [L] ∧
        L.Sublist conn.enabledClients ∧
        data.clientID ∉ L ∧
        ∀ x, x ≠ data.clientID → L.count x = conn.enabledClients.count x) ∧
    updatedLists
        (deleteConnectionClient dataDemo (Except.ok connDemo) (fun _ => none)).2.2
      = [["a", "b"]] := by
  constructor
  · intro data conn updateResp
    refine ⟨conn.enabledClients.filter fun c => !(c == data.clientID), ?_, ?_, ?_, ?_⟩
    · cases h : updateResp (conn.enabledClients.filter fun c => !(c == data.clientID)) with
      | some e =>
        by_cases hnf : e.isNotFound <;>
          simp [deleteConnectionClient, h, hnf, updatedLists]
      | none =>
        simp [deleteConnectionClient, h, updatedLists]
    · exact List.filter_sublist _
    · intro hmem
      have := List.of_mem_filter hmem
      simp at this
    · intro x hx
      rw [List.count_filter]
      simpa using hx
  · decide

/-- C5: When the fetch fails, `createConnectionClient` returns that very
error to the caller — also when the error is NotFound — and performs no
write: the whole run is lock, read, unlock, with the state unchanged.  By
contrast, the read and delete paths map a NotFound fetch error to a
successful outcome. -/
theorem createConnectionClient_fetch_error_is_hard_failure :
    (∀ (uid : String) (data : ResourceData) (e : ApiError)
        (updateResp : List String → Option ApiError)
        (confirmReadResp : Except ApiError Connection),
      createConnectionClient uid data (Except.error e) updateResp confirmReadResp
        = (data, some e,
            [Event.lock data.connectionID, Event.apiRead data.connectionID,
             Event.unlock data.connectionID])) ∧
    (∀ data : ResourceData,
      (readConnectionClient data (Except.error (ApiError.management 404))).2.1 = none) ∧
    (∀ (data : ResourceData) (updateResp : List String → Option ApiError),
      (deleteConnectionClient data (Except.error (ApiError.management 404)) updateResp).2.1
        = none) := by
  refine ⟨?_, ?_, ?_⟩
  · intro uid data e updateResp confirmReadResp
    simp [createConnectionClient]
  · intro data
    simp [readConnectionClient, ApiError.isNotFound]
  · intro data updateResp
    simp [deleteConnectionClient, ApiError.isNotFound]

/-- C4: `deleteConnectionClient` is idempotent with respect to a missing
parent: a NotFound fetch clears the id and succeeds with no write attempted;
a NotFound write-back likewise clears the id and succeeds; any other fetch
or write error is returned to the caller with the state unchanged. -/
theorem deleteConnectionClient_idempotent_on_missing_parent :
    (∀ (data : ResourceData) (e : ApiError)
        (updateResp : List String → Option ApiError),
      e.isNotFound = true →
      deleteConnectionClient data (Except.error e) updateResp
        = ({ data with id := "" }, none,
            [Event.lock data.connectionID, Event.apiRead data.connectionID,
             Event.unlock data.connectionID])) ∧
    (∀ (data : ResourceData) (e : ApiError)
        (updateResp : List String → Option ApiError),
      e.isNotFound = false →
      deleteConnectionClient data (Except.error e) updateResp
        = (data, some e,
            [Event.lock data.connectionID, Event.apiRead data.connectionID,
             Event.unlock data.connectionID])) ∧
    (∀ (data : ResourceData) (conn : Connection)
        (updateResp : List String → Option ApiError) (e : ApiError),
      updateResp (conn.enabledClients.filter fun c => !(c == data.clientID)) = some e →
      e.isNotFound = true →
      (deleteConnectionClient data (Except.ok conn) updateResp).1 = { data with id := "" } ∧
      (deleteConnectionClient data (Except.ok conn) updateResp).2.1 = none) ∧
    (∀ (data : ResourceData) (conn : Connection)
        (updateResp : List String → Option ApiError) (e : ApiError),
      updateResp (conn.enabledClients.filter fun c => !(c == data.clientID)) = some e →
      e.isNotFound = false →
      (deleteConnectionClient data (Except.ok conn) updateResp).1 = data ∧
      (deleteConnectionClient data (Except.ok conn) updateResp).2.1 = some e) := by
  refine ⟨?_, ?_, ?_, ?_⟩
  · intro data e updateResp h
    simp [deleteConnectionClient, h]
  · intro data e updateResp h
    simp [deleteConnectionClient, h]
  · intro data conn updateResp e hupd hnf
    constructor <;> simp [deleteConnectionClient, hupd, hnf]
  · intro data conn updateResp e hupd hnf
    constructor <;> simp [deleteConnectionClient, hupd, hnf]

/-- Witness for C4 at concrete inputs: a 404 fetch error, a transport fetch
error, a 404 write-back, and a transport write-back against the demo
membership fact. -/
theorem deleteConnectionClient_idempotent_witness :
    (deleteConnectionClient dataDemo (Except.error (ApiError.management 404))
        (fun _ => none)
      = ({ dataDemo with id := "" }, none,
          [Event.lock "conn1", Event.apiRead "conn1", Event.unlock "conn1"])) ∧
    (deleteConnectionClient dataDemo (Except.error ApiError.transport) (fun _ => none)
      = (dataDemo, some ApiError.transport,
          [Event.lock "conn1", Event.apiRead "conn1", Event.unlock "conn1"])) ∧
    ((deleteConnectionClient dataDemo (Except.ok connDemo)
        (fun _ => some (ApiError.management 404))).2.1 = none) ∧
    ((deleteConnectionClient dataDemo (Except.ok connDemo)
        (fun _ => some ApiError.transport)).2.1 = some ApiError.transport) :=
  ⟨deleteConnectionClient_idempotent_on_missing_parent.1 dataDemo
      (ApiError.management 404) (fun _ => none) (by decide),
   deleteConnectionClient_idempotent_on_missing_parent.2.1 dataDemo
      ApiError.transport (fun _ => none) (by decide),
   (deleteConnectionClient_idempotent_on_missing_parent.2.2.1 dataDemo connDemo
      (fun _ => some (ApiError.management 404)) (ApiError.management 404) rfl
      (by decide)).2,
   (deleteConnectionClient_idempotent_on_missing_parent.2.2.2 dataDemo connDemo
      (fun _ => some ApiError.transport) ApiError.transport rfl (by decide)).2⟩

/-- C6: `readConnectionClient` reports "membership absent" without error
(clearing the resource id) both on a NotFound fetch and when the client id
does not occur in the enabled clients; when the client id occurs, it keeps
the id and surfaces the connection's name and strategy; any other fetch
error is returned with the state unchanged. -/
theorem readConnectionClient_observation_cases :
    (∀ (data : ResourceData) (e : ApiError),
      e.isNotFound = true →
      readConnectionClient data (Except.error e)
        = ({ data with id := "" }, none, [Event.apiRead data.connectionID])) ∧
    (∀ (data : ResourceData) (conn : Connection),
      data.clientID ∉ conn.enabledClients →
      readConnectionClient data (Except.ok conn)
        = ({ data with id := "" }, none, [Event.apiRead data.connectionID])) ∧
    (∀ (data : ResourceData) (conn : Connection),
      data.clientID ∈ conn.enabledClients →
      readConnectionClient data (Except.ok conn)
        = ({ data with name := conn.name, strategy := conn.strategy }, none,
            [Event.apiRead data.connectionID])) ∧
    (∀ (data : ResourceData) (e : ApiError),
      e.isNotFound = false →
      readConnectionClient data (Except.error e)
        = (data, some e, [Event.apiRead data.connectionID])) := by
  refine ⟨?_, ?_, ?_, ?_⟩
  · intro data e h
    simp [readConnectionClient, h]
  · intro data conn h
    have hany : (conn.enabledClients.any fun enabledClientID =>
        enabledClientID == data.clientID) = false := by
      simp only [List.any_eq_false]
      intro x hx
      simp only [beq_iff_eq]
      intro hxe
      exact h (hxe ▸ hx)
    simp [readConnectionClient, hany]
  · intro data conn h
    have hany : (conn.enabledClients.any fun enabledClientID =>
        enabledClientID == data.clientID) = true := by
      simp only [List.any_eq_true]
      exact ⟨data.clientID, h, by simp⟩
    simp [readConnectionClient, hany]
  · intro data e h
    simp [readConnectionClient, h]

/-- Witness for C6 at concrete inputs: a 404 fetch, a fetch whose list lacks
"m", a fetch whose list contains "m", and a transport error. -/
theorem readConnectionClient_observation_witness :
    (readConnectionClient dataDemo (Except.error (ApiError.management 404))
      = ({ dataDemo with id := "" }, none, [Event.apiRead "conn1"])) ∧
    (readConnectionClient dataDemo (Except.ok connDemoAbsent)
      = ({ dataDemo with id := "" }, none, [Event.apiRead "conn1"])) ∧
    (readConnectionClient dataDemo (Except.ok connDemo)
      = ({ dataDemo with name := "Conn One", strategy := "auth0" }, none,
          [Event.apiRead "conn1"])) ∧
    (readConnectionClient dataDemo (Except.error ApiError.transport)
      = (dataDemo, some ApiError.transport, [Event.apiRead "conn1"])) :=
  ⟨readConnectionClient_observation_cases.1 dataDemo (ApiError.management 404)
      (by decide),
   readConnectionClient_observation_cases.2.1 dataDemo connDemoAbsent (by decide),
   readConnectionClient_observation_cases.2.2.1 dataDemo connDemo (by decide),
   readConnectionClient_observation_cases.2.2.2 dataDemo ApiError.transport
      (by decide)⟩

/-- C7: If establishing the membership succeeds (the fetch returns the
connection, the write succeeds) and no other mutation intervenes (the
confirmation read returns exactly the just-written list), the confirmation
pass reports "membership present": the resource keeps its fresh non-empty
id and surfaces the connection's name and strategy. -/
theorem establish_then_observe_present (uid : String) (data : ResourceData)
    (conn : Connection) (huid : uid ≠ "") :
    (createConnectionClient uid data (Except.ok conn) (fun _ => none)
        (Except.ok { conn with
          enabledClients := conn.enabledClients ++ [data.clientID] })).2.1 = none ∧
    (createConnectionClient uid data (Except.ok conn) (fun _ => none)
        (Except.ok { conn with
          enabledClients := conn.enabledClients ++ [data.clientID] })).1
      = { data with id := uid, name := conn.name, strategy := conn.strategy } ∧
    (createConnectionClient uid data (Except.ok conn) (fun _ => none)
        (Except.ok { conn with
          enabledClients := conn.enabledClients ++ [data.clientID] })).1.id ≠ "" := by
  have hany : ((conn.enabledClients ++ [data.clientID]).any fun enabledClientID =>
      enabledClientID == data.clientID) = true := by
    simp [List.any_eq_true]
  refine ⟨?_, ?_, ?_⟩ <;>
    simp [createConnectionClient, readConnectionClient, hany, huid]

/-- Witness for C7: establishing ("conn1", "m") on the demo connection and
confirming against the written list reports present. -/
theorem establish_then_observe_present_witness :
    (createConnectionClient "terraform-1" dataDemo (Except.ok connDemoAbsent)
        (fun _ => none)
        (Except.ok { connDemoAbsent with
          enabledClients := connDemoAbsent.enabledClients ++ ["m"] })).2.1 = none ∧
    (createConnectionClient "terraform-1" dataDemo (Except.ok connDemoAbsent)
        (fun _ => none)
        (Except.ok { connDemoAbsent with
          enabledClients := connDemoAbsent.enabledClients ++ ["m"] })).1
      = { dataDemo with id := "terraform-1", name := "Conn One", strategy := "auth0" } ∧
    (createConnectionClient "terraform-1" dataDemo (Except.ok connDemoAbsent)
        (fun _ => none)
        (Except.ok { connDemoAbsent with
          enabledClients := connDemoAbsent.enabledClients ++ ["m"] })).1.id ≠ "" :=
  establish_then_observe_present "terraform-1" dataDemo connDemoAbsent (by decide)

/-- C8 counterexample: On a concrete successful establish run, the trace
is lock, read, write, confirmation read, unlock: the deferred unlock runs
only after the tail call to the read-confirmation pass has returned, so the
confirmation read executes while the lock is still held — no remote read
occurs after the unlock, contradicting the claim that the lock is released
before the read-confirmation pass runs. -/
theorem createConnectionClient_confirm_read_inside_lock_cex :
    (createConnectionClient "terraform-1" dataDemo (Except.ok connDemoAbsent)
        (fun _ => none)
        (Except.ok { connDemoAbsent with
          enabledClients := ["a", "b", "m"] })).2.2
      = [Event.lock "conn1", Event.apiRead "conn1",
         Event.apiUpdate "conn1" ["a", "b", "m"], Event.apiRead "conn1",
         Event.unlock "conn1"] ∧
    readAfterUnlock "conn1"
        (createConnectionClient "terraform-1" dataDemo (Except.ok connDemoAbsent)
          (fun _ => none)
          (Except.ok { connDemoAbsent with
            enabledClients := ["a", "b", "m"] })).2.2
      = false := by
  constructor <;> decide

/-- C8 amended: In every run of `createConnectionClient` the deferred
unlock is the last event of the trace, after the read-confirmation pass: no
remote read ever occurs after the unlock, i.e. the confirmation read
executes while the lock for `connection_id` is still held. -/
theorem createConnectionClient_unlock_after_confirm_read (uid : String)
    (data : ResourceData) (readResp : Except ApiError Connection)
    (updateResp : List String → Option ApiError)
    (confirmReadResp : Except ApiError Connection) :
    ((createConnectionClient uid data readResp updateResp confirmReadResp).2.2).getLast?
      = some (Event.unlock data.connectionID) ∧
    readAfterUnlock data.connectionID
        (createConnectionClient uid data readResp updateResp confirmReadResp).2.2
      = false := by
  cases readResp with
  | error e =>
    constructor <;> simp [createConnectionClient, readAfterUnlock]
  | ok conn =>
    cases h : updateResp (conn.enabledClients ++ [data.clientID]) with
    | some e =>
      constructor <;> simp [createConnectionClient, h, readAfterUnlock]
    | none =>
      constructor <;>
        simp [createConnectionClient, h, readAfterUnlock,
          readConnectionClient_trace]

/-- The invariant holds in every initial state. -/
theorem lockInv_init {s : LockSysState} (h : LockInit s) : LockInv s := by
  intro i h1 _h4
  rw [h.1 i] at h1
  omega


/-- The invariant is preserved by every step. -/
theorem lockInv_step {s s2 : LockSysState} (hst : LockStep s s2)
    (hinv : LockInv s) : LockInv s2 := by
  cases hst with
  | acquire i hpc hfree =>
    intro j h1 h4
    dsimp only at h1 h4 ⊢
    by_cases hji : j = i
    · subst hji
      simp
    · rw [if_neg hji] at h1 h4
      rw [if_neg hji]
      have hj := hinv j h1 h4
      by_cases hk : (s.threads j).key = (s.threads i).key
      · rw [hk, hfree] at hj
        simp at hj
      · rw [if_neg hk]
        exact hj
  | advance i h1 h3 =>
    intro j hj1 hj4
    dsimp only at hj1 hj4 ⊢
    by_cases hji : j = i
    · subst hji
      rw [if_pos rfl]
      exact hinv j h1 (by omega)
    · rw [if_neg hji] at hj1 hj4
      rw [if_neg hji]
      exact hinv j hj1 hj4
  | release i hpc =>
    intro j hj1 hj4
    dsimp only at hj1 hj4 ⊢
    by_cases hji : j = i
    · subst hji
      rw [if_pos rfl] at hj4
      have h5 : (5 : Nat) ≤ 4 := hj4
      exact absurd h5 (by decide)
    · rw [if_neg hji] at hj1 hj4
      rw [if_neg hji]
      have hj := hinv j hj1 hj4
      by_cases hk : (s.threads j).key = (s.threads i).key
      · have hi := hinv i (by omega) (by omega)
        rw [hk, hi] at hj
        injection hj with h
        exact absurd h.symm hji
      · rw [if_neg hk]
        exact hj

/-- The invariant holds in every state reachable from an initial state. -/
theorem lockInv_reachable {s0 s : LockSysState} (h0 : LockInit s0)
    (hr : Relation.ReflTransGen LockStep s0 s) : LockInv s := by
  induction hr with
  | refl => exact lockInv_init h0
  | tail _hab hbc ih => exact lockInv_step hbc ih

/-- A thread waiting on a free key can always acquire it, entering its
critical section while every other thread and every other key is left
untouched. -/
theorem acquire_enabled (s : LockSysState) (i : Nat)
    (hpc : (s.threads i).pc = 0)
    (hfree : s.locks ((s.threads i).key) = none) :
    ∃ s2, LockStep s s2 ∧ InCritical (s2.threads i) ∧
      (∀ j, j ≠ i → s2.threads j = s.threads j) ∧
      (∀ k, k ≠ (s.threads i).key → s2.locks k = s.locks k) :=
  ⟨_, LockStep.acquire s i hpc hfree,
    by simp [InCritical],
    fun j hj => by simp [if_neg hj],
    fun k hk => by simp [if_neg hk]⟩

/-- C1: (lock modelled from the spec) First conjunct: in every state
reachable from an initial state, two distinct reconciliation threads with
the same parent key are never both inside their fetch-modify-write
sequence — the per-key mutex serializes reconciliations of one parent.
Second conjunct: locks for distinct parent keys are independent — from any
state where two threads wait on distinct free keys, both can acquire in
succession and end up inside their critical sections simultaneously, so
reconciliations for distinct parent IDs do not block each other. -/
theorem perKey_mutex_serializes_reconciliations :
    (∀ s0 s : LockSysState, LockInit s0 →
      Relation.ReflTransGen LockStep s0 s →
      ∀ i j : Nat, i ≠ j → (s.threads i).key = (s.threads j).key →
        ¬(InCritical (s.threads i) ∧ InCritical (s.threads j))) ∧
    (∀ (s : LockSysState) (i j : Nat), i ≠ j →
      (s.threads i).key ≠ (s.threads j).key →
      (s.threads i).pc = 0 → (s.threads j).pc = 0 →
      s.locks ((s.threads i).key) = none → s.locks ((s.threads j).key) = none →
      ∃ s1 s2, LockStep s s1 ∧ LockStep s1 s2 ∧
        InCritical (s1.threads i) ∧ InCritical (s2.threads i) ∧
        InCritical (s2.threads j)) := by
  constructor
  · intro s0 s h0 hr i j hij hkey hc
    obtain ⟨⟨hi1, hi3⟩, hj1, hj3⟩ := hc
    have hinv := lockInv_reachable h0 hr
    have hi := hinv i hi1 (by omega)
    have hj := hinv j hj1 (by omega)
    rw [hkey, hj] at hi
    injection hi with h
    exact hij h.symm
  · intro s i j hij hkey hpci hpcj hfreei hfreej
    obtain ⟨s1, hstep1, hcrit1, hth1, hlk1⟩ := acquire_enabled s i hpci hfreei
    have hpcj1 : (s1.threads j).pc = 0 := by
      rw [hth1 j (Ne.symm hij)]
      exact hpcj
    have hfreej1 : s1.locks ((s1.threads j).key) = none := by
      rw [hth1 j (Ne.symm hij), hlk1 _ (Ne.symm hkey)]
      exact hfreej
    obtain ⟨s2, hstep2, hcrit2, hth2, _hlk2⟩ := acquire_enabled s1 j hpcj1 hfreej1
    refine ⟨s1, s2, hstep1, hstep2, hcrit1, ?_, hcrit2⟩
    rw [hth2 i hij]
    exact hcrit1

/-- Witness for C1: in the two-thread demo contending for the key "conn",
after thread 0 acquires, threads 0 and 1 are not both critical; and in the
distinct-key demo, both threads reach their critical sections at once. -/
theorem perKey_mutex_witness :
    (¬(InCritical (lockDemoAfter.threads 0) ∧ InCritical (lockDemoAfter.threads 1))) ∧
    (∃ s1 s2, LockStep lockDemoDistinct s1 ∧ LockStep s1 s2 ∧
      InCritical (s1.threads 0) ∧ InCritical (s2.threads 0) ∧
      InCritical (s2.threads 1)) :=
  ⟨perKey_mutex_serializes_reconciliations.1 lockDemoInit lockDemoAfter
      ⟨fun _ => rfl, fun _ => rfl⟩
      (Relation.ReflTransGen.single (LockStep.acquire lockDemoInit 0 rfl rfl))
      0 1 (by decide) rfl,
   perKey_mutex_serializes_reconciliations.2 lockDemoDistinct 0 1 (by decide)
      (by decide) rfl rfl rfl rfl⟩

/-- C9 counterexample: Two concrete states on which
`connectionSchemaUpgradeV0` does not behave as claimed.  First: when the
non-empty options list starts with a value that is not a map, the function
does not return the state unchanged — it panics on the unchecked type
assertion (modelled as `none`).  Second: when the options list has a second
element, the write-back `state["options"] = []interface\x7b\x7d\x7bm\x7d`
replaces the whole list by the one-element list holding the updated first
map, dropping the second element rather than leaving the rest of the state
intact. -/
theorem connectionSchemaUpgradeV0_cex :
    connectionSchemaUpgradeV0 c9PanicState = none ∧
    ¬connectionSchemaUpgradeV0 c9PanicState = some (c9PanicState, none) ∧
    connectionSchemaUpgradeV0 c9TwoElemState
      = some ([("options", GoValue.list
          [GoValue.map [("strategy_version", GoValue.int 3)]])], none) ∧
    ¬connectionSchemaUpgradeV0 c9TwoElemState
      = some ([("options", GoValue.list
          [GoValue.map [("strategy_version", GoValue.int 3)],
           GoValue.map [("other_key", GoValue.int 1)]])], none) := by
  refine ⟨rfl, ?_, rfl, ?_⟩
  · intro h
    rw [show connectionSchemaUpgradeV0 c9PanicState = none from rfl] at h
    exact Option.noConfusion h
  · intro h
    rw [show connectionSchemaUpgradeV0 c9TwoElemState
        = some ([("options", GoValue.list
            [GoValue.map [("strategy_version", GoValue.int 3)]])], none) from rfl] at h
    simp at h

/-- C9 amended: Full case analysis of `connectionSchemaUpgradeV0`:
with no `options` key, a non-list or empty `options`, a missing or
non-string `strategy_version`, the state is returned unchanged with a nil
error; with a string `strategy_version` in the first options map, that
entry becomes the `strconv.Atoi` parse of the string (or `0` when parsing
fails) and `options` is rebound to the one-element list of the updated map
(dropping any further elements), again with a nil error; and when the first
element of a non-empty options list is not a map, the function panics on
the type assertion instead of returning. -/
theorem connectionSchemaUpgradeV0_cases :
    (∀ state, goLookup state "options" = none →
      connectionSchemaUpgradeV0 state = some (state, none)) ∧
    (∀ state v, goLookup state "options" = some v →
      (∀ xs, v ≠ GoValue.list xs) →
      connectionSchemaUpgradeV0 state = some (state, none)) ∧
    (∀ state, goLookup state "options" = some (GoValue.list []) →
      connectionSchemaUpgradeV0 state = some (state, none)) ∧
    (∀ state m rest,
      goLookup state "options" = some (GoValue.list (GoValue.map m :: rest)) →
      goLookup m "strategy_version" = none →
      connectionSchemaUpgradeV0 state = some (state, none)) ∧
    (∀ state m rest sv,
      goLookup state "options" = some (GoValue.list (GoValue.map m :: rest)) →
      goLookup m "strategy_version" = some sv →
      (∀ s, sv ≠ GoValue.str s) →
      connectionSchemaUpgradeV0 state = some (state, none)) ∧
    (∀ state m rest s,
      goLookup state "options" = some (GoValue.list (GoValue.map m :: rest)) →
      goLookup m "strategy_version" = some (GoValue.str s) →
      connectionSchemaUpgradeV0 state
        = some (goInsert state "options"
            (GoValue.list [GoValue.map (goInsert m "strategy_version"
              (GoValue.int (match atoi s with
                            | some n => n
                            | none => 0)))]), none)) ∧
    (∀ state first rest,
      goLookup state "options" = some (GoValue.list (first :: rest)) →
      (∀ m, first ≠ GoValue.map m) →
      connectionSchemaUpgradeV0 state = none) := by
  refine ⟨?_, ?_, ?_, ?_, ?_, ?_, ?_⟩
  · intro state h
    simp [connectionSchemaUpgradeV0, h]
  · intro state v h hv
    rw [connectionSchemaUpgradeV0, h]
    cases v with
    | list xs => exact absurd rfl (hv xs)
    | str s => rfl
    | int n => rfl
    | map m => rfl
    | other => rfl
  · intro state h
    rw [connectionSchemaUpgradeV0, h]
  · intro state m rest h hm
    rw [connectionSchemaUpgradeV0, h]
    dsimp only
    rw [hm]
  · intro state m rest sv h hm hsv
    rw [connectionSchemaUpgradeV0, h]
    dsimp only
    rw [hm]
    cases sv with
    | str s => exact absurd rfl (hsv s)
    | int n => rfl
    | list xs => rfl
    | map m2 => rfl
    | other => rfl
  · intro state m rest s h hm
    rw [connectionSchemaUpgradeV0, h]
    dsimp only
    rw [hm]
  · intro state first rest h hfirst
    rw [connectionSchemaUpgradeV0, h]
    cases first with
    | map m => exact absurd rfl (hfirst m)
    | str s => rfl
    | int n => rfl
    | list xs => rfl
    | other => rfl

/-- Witness for the amended C9: on a state whose `strategy_version` is the
unparsable string "badnum", the upgrade rewrites it to the integer 0 with a
nil error. -/
theorem connectionSchemaUpgradeV0_cases_witness :
    connectionSchemaUpgradeV0 c9BadNumState
      = some ([("options", GoValue.list
          [GoValue.map [("strategy_version", GoValue.int 0)]])], none) :=
  connectionSchemaUpgradeV0_cases.2.2.2.2.2.1 c9BadNumState
    [("strategy_version", GoValue.str "badnum")] [] "badnum" rfl rfl

/-- Peeling the first page off an aggregated error list. -/
theorem sweepErrorsBefore_succ (deleteResp : String → Option ApiError)
    (cl : Nat → ConnectionList) (p k : Nat) :
    sweepErrorsBefore deleteResp cl p (k + 1)
      = (sweepPage deleteResp (cl p).connections).1
          ++ sweepErrorsBefore deleteResp cl (p + 1) k := by
  unfold sweepErrorsBefore
  rw [List.range_succ_eq_map]
  simp only [List.map_cons, List.map_map, List.flatten_cons, Nat.add_zero]
  congr 2
  apply List.map_congr_left
  intro i _
  simp only [Function.comp_apply]
  have heq : p + Nat.succ i = p + 1 + i := by omega
  rw [heq]

/-- Peeling the first page off an aggregated attempted-deletion list. -/
theorem sweepDeletedBefore_succ (deleteResp : String → Option ApiError)
    (cl : Nat → ConnectionList) (p k : Nat) :
    sweepDeletedBefore deleteResp cl p (k + 1)
      = (sweepPage deleteResp (cl p).connections).2
          ++ sweepDeletedBefore deleteResp cl (p + 1) k := by
  unfold sweepDeletedBefore
  rw [List.range_succ_eq_map]
  simp only [List.map_cons, List.map_map, List.flatten_cons, Nat.add_zero]
  congr 2
  apply List.map_congr_left
  intro i _
  simp only [Function.comp_apply]
  have heq : p + Nat.succ i = p + 1 + i := by omega
  rw [heq]

/-- Characterization of a terminating sweep: when pages `p`..`p+k` all list
successfully, pages before `p+k` have a next page and page `p+k` does not,
the loop visits exactly those pages and returns the accumulated errors. -/
theorem sweepLoop_run (listResp : Nat → Except ApiError ConnectionList)
    (deleteResp : String → Option ApiError) (cl : Nat → ConnectionList) :
    ∀ (k fuel p : Nat) (acc : List ApiError) (deleted : List String),
      (∀ i, i ≤ k → listResp (p + i) = Except.ok (cl (p + i))) →
      (∀ i, i < k → (cl (p + i)).hasNext = true) →
      (cl (p + k)).hasNext = false →
      k < fuel →
      sweepLoop listResp deleteResp fuel p acc deleted
        = some (Except.ok (acc ++ sweepErrorsBefore deleteResp cl p (k + 1)),
            deleted ++ sweepDeletedBefore deleteResp cl p (k + 1)) := by
  intro k
  induction k with
  | zero =>
    intro fuel p acc deleted h1 _h2 h3 hf
    match fuel, hf with
    | fuel + 1, _ =>
      have hp := h1 0 (Nat.le_refl 0)
      rw [Nat.add_zero] at hp
      rw [Nat.add_zero] at h3
      simp only [sweepLoop]
      rw [hp]
      dsimp only
      rw [h3]
      simp [sweepErrorsBefore, sweepDeletedBefore, List.range_succ]
  | succ k ih =>
    intro fuel p acc deleted h1 h2 h3 hf
    match fuel, hf with
    | fuel + 1, hf =>
      have hp := h1 0 (Nat.zero_le _)
      rw [Nat.add_zero] at hp
      have hn := h2 0 (Nat.succ_pos k)
      rw [Nat.add_zero] at hn
      simp only [sweepLoop]
      rw [hp]
      dsimp only
      simp only [hn, eq_self_iff_true, if_true]
      have h1b : ∀ i, i ≤ k → listResp (p + 1 + i) = Except.ok (cl (p + 1 + i)) := by
        intro i hi
        have := h1 (i + 1) (by omega)
        have heq : p + (i + 1) = p + 1 + i := by omega
        rw [heq] at this
        exact this
      have h2b : ∀ i, i < k → (cl (p + 1 + i)).hasNext = true := by
        intro i hi
        have := h2 (i + 1) (by omega)
        have heq : p + (i + 1) = p + 1 + i := by omega
        rw [heq] at this
        exact this
      have h3b : (cl (p + 1 + k)).hasNext = false := by
        have heq : p + (k + 1) = p + 1 + k := by omega
        rw [heq] at h3
        exact h3
      rw [ih fuel (p + 1)
        (acc ++ (sweepPage deleteResp (cl p).connections).1)
        (deleted ++ (sweepPage deleteResp (cl p).connections).2)
        h1b h2b h3b (by omega)]
      rw [sweepErrorsBefore_succ deleteResp cl p (k + 1),
          sweepDeletedBefore_succ deleteResp cl p (k + 1)]
      rw [List.append_assoc, List.append_assoc]

/-- Characterization of an aborted sweep: when pages `p`..`p+k-1` list
successfully with a next page and the listing of page `p+k` fails, the loop
returns that error immediately, with only the earlier pages swept. -/
theorem sweepLoop_abort (listResp : Nat → Except ApiError ConnectionList)
    (deleteResp : String → Option ApiError) (cl : Nat → ConnectionList) :
    ∀ (k fuel p : Nat) (acc : List ApiError) (deleted : List String) (e : ApiError),
      (∀ i, i < k → listResp (p + i) = Except.ok (cl (p + i))) →
      (∀ i, i < k → (cl (p + i)).hasNext = true) →
      listResp (p + k) = Except.error e →
      k < fuel →
      sweepLoop listResp deleteResp fuel p acc deleted
        = some (Except.error e, deleted ++ sweepDeletedBefore deleteResp cl p k) := by
  intro k
  induction k with
  | zero =>
    intro fuel p acc deleted e _h1 _h2 h3 hf
    match fuel, hf with
    | fuel + 1, _ =>
      rw [Nat.add_zero] at h3
      simp only [sweepLoop]
      rw [h3]
      simp [sweepDeletedBefore]
  | succ k ih =>
    intro fuel p acc deleted e h1 h2 h3 hf
    match fuel, hf with
    | fuel + 1, hf =>
      have hp := h1 0 (Nat.succ_pos k)
      rw [Nat.add_zero] at hp
      have hn := h2 0 (Nat.succ_pos k)
      rw [Nat.add_zero] at hn
      simp only [sweepLoop]
      rw [hp]
      dsimp only
      simp only [hn, eq_self_iff_true, if_true]
      have h1b : ∀ i, i < k → listResp (p + 1 + i) = Except.ok (cl (p + 1 + i)) := by
        intro i hi
        have := h1 (i + 1) (by omega)
        have heq : p + (i + 1) = p + 1 + i := by omega
        rw [heq] at this
        exact this
      have h2b : ∀ i, i < k → (cl (p + 1 + i)).hasNext = true := by
        intro i hi
        have := h2 (i + 1) (by omega)
        have heq : p + (i + 1) = p + 1 + i := by omega
        rw [heq] at this
        exact this
      have h3b : listResp (p + 1 + k) = Except.error e := by
        have heq : p + (k + 1) = p + 1 + k := by omega
        rw [heq] at h3
        exact h3
      rw [ih fuel (p + 1)
        (acc ++ (sweepPage deleteResp (cl p).connections).1)
        (deleted ++ (sweepPage deleteResp (cl p).connections).2)
        e h1b h2b h3b (by omega)]
      rw [sweepDeletedBefore_succ deleteResp cl p k]
      rw [List.append_assoc]

/-- One page of the sweeper attempts deletion exactly of the connections
whose name contains "Test", in order, and collects exactly the non-nil
deletion errors of those attempts. -/
theorem sweepPage_spec (deleteResp : String → Option ApiError) :
    ∀ conns : List SweeperConnection,
      (sweepPage deleteResp conns).2
        = ((conns.filter fun c => strContains c.name "Test").map fun c => c.id) ∧
      (sweepPage deleteResp conns).1
        = (((conns.filter fun c => strContains c.name "Test").map fun c => c.id).filterMap
            fun cid => deleteResp cid) := by
  intro conns
  induction conns with
  | nil => exact ⟨rfl, rfl⟩
  | cons c rest ih =>
    by_cases hc : strContains c.name "Test"
    · cases hd : deleteResp c.id with
      | some e =>
        constructor
        · simp [sweepPage, hc, hd, List.filter_cons, ih.1]
        · simp [sweepPage, hc, hd, List.filter_cons, List.filterMap_cons, ih.2]
      | none =>
        constructor
        · simp [sweepPage, hc, hd, List.filter_cons, ih.1]
        · simp [sweepPage, hc, hd, List.filter_cons, List.filterMap_cons, ih.2]
    · constructor
      · simp [sweepPage, hc, List.filter_cons, ih.1]
      · simp [sweepPage, hc, List.filter_cons, ih.2]

/-- C10: First conjunct: a terminating sweep visits pages 0..k (stopping
after the first page whose listing reports no next page) and returns the
deletion errors accumulated across all those pages (the sweeper's final
`ErrorOrNil` is nil exactly when this list is empty).  Second conjunct: on
each page, deletion is attempted exactly for the connections whose name
contains the substring "Test", in order, and the accumulated errors are
exactly the non-nil outcomes of those attempts — a failed deletion does not
stop the sweep.  Third conjunct: an error from the List call itself aborts
the sweep immediately with that error, after the deletions of the earlier
pages only. -/
theorem connections_sweeper_spec :
    (∀ (listResp : Nat → Except ApiError ConnectionList)
        (deleteResp : String → Option ApiError)
        (cl : Nat → ConnectionList) (k fuel : Nat),
      (∀ i, i ≤ k → listResp i = Except.ok (cl i)) →
      (∀ i, i < k → (cl i).hasNext = true) →
      (cl k).hasNext = false →
      k < fuel →
      sweepConnections listResp deleteResp fuel
        = some (Except.ok (sweepErrorsBefore deleteResp cl 0 (k + 1)),
            sweepDeletedBefore deleteResp cl 0 (k + 1))) ∧
    (∀ (deleteResp : String → Option ApiError) (conns : List SweeperConnection),
      (sweepPage deleteResp conns).2
        = ((conns.filter fun c => strContains c.name "Test").map fun c => c.id) ∧
      (sweepPage deleteResp conns).1
        = (((conns.filter fun c => strContains c.name "Test").map fun c => c.id).filterMap
            fun cid => deleteResp cid)) ∧
    (∀ (listResp : Nat → Except ApiError ConnectionList)
        (deleteResp : String → Option ApiError)
        (cl : Nat → ConnectionList) (k fuel : Nat) (e : ApiError),
      (∀ i, i < k → listResp i = Except.ok (cl i)) →
      (∀ i, i < k → (cl i).hasNext = true) →
      listResp k = Except.error e →
      k < fuel →
      sweepConnections listResp deleteResp fuel
        = some (Except.error e, sweepDeletedBefore deleteResp cl 0 k)) := by
  refine ⟨?_, ?_, ?_⟩
  · intro listResp deleteResp cl k fuel h1 h2 h3 hf
    unfold sweepConnections
    rw [sweepLoop_run listResp deleteResp cl k fuel 0 [] []
      (by intro i hi; rw [Nat.zero_add]; exact h1 i hi)
      (by intro i hi; rw [Nat.zero_add]; exact h2 i hi)
      (by rw [Nat.zero_add]; exact h3) hf]
    rw [List.nil_append, List.nil_append]
  · intro deleteResp conns
    exact sweepPage_spec deleteResp conns
  · intro listResp deleteResp cl k fuel e h1 h2 h3 hf
    unfold sweepConnections
    rw [sweepLoop_abort listResp deleteResp cl k fuel 0 [] [] e
      (by intro i hi; rw [Nat.zero_add]; exact h1 i hi)
      (by intro i hi; rw [Nat.zero_add]; exact h2 i hi)
      (by rw [Nat.zero_add]; exact h3) hf]
    rw [List.nil_append]

/-- Witness for C10: sweeping the two demo pages deletes "id1" (whose name
"Test one" matches and whose deletion fails with a transport error) and
"id3" (name "ATestB", deletion succeeds), skips "id2" (name "prod"), and
returns the single accumulated transport error. -/
theorem connections_sweeper_spec_witness :
    sweepConnections sweepDemoList sweepDemoDelete 2
      = some (Except.ok [ApiError.transport], ["id1", "id3"]) :=
  connections_sweeper_spec.1 sweepDemoList sweepDemoDelete sweepDemoPages 1 2
    (fun _ _ => rfl)
    (fun i hi => by
      have h0 : i = 0 := by omega
      rw [h0]
      rfl)
    rfl
    (by omega)

/-- Witness for C2: establishing "m" on the demo connection (which already
contains "m") writes the fetched list with "m" appended, duplicating it. -/
theorem createConnectionClient_appends_witness :
    updatedLists
        (createConnectionClient "terraform-1" dataDemo (Except.ok connDemo)
          (fun _ => none) (Except.ok connDemo)).2.2
      = [["a", "m", "b", "m", "m"]] ∧
    connDemo.enabledClients <+: ["a", "m", "b", "m", "m"] ∧
    (["a", "m", "b", "m", "m"] : List String).count "m"
      = connDemo.enabledClients.count "m" + 1 ∧
    ∀ x, x ≠ "m" →
      (["a", "m", "b", "m", "m"] : List String).count x
        = connDemo.enabledClients.count x :=
  createConnectionClient_appends_without_dedup "terraform-1" dataDemo connDemo
    (fun _ => none) (Except.ok connDemo)

/-- Witness for C3: removing "m" from the demo connection whose list is
["a", "m", "b", "m"]. -/
theorem deleteConnectionClient_removes_witness :
    ∃ L,
      updatedLists
          (deleteConnectionClient dataDemo (Except.ok connDemo) (fun _ => none)).2.2
        = [L] ∧
      L.Sublist connDemo.enabledClients ∧
      "m" ∉ L ∧
      ∀ x, x ≠ "m" → L.count x = connDemo.enabledClients.count x :=
  deleteConnectionClient_removes_all_occurrences.1 dataDemo connDemo (fun _ => none)

/-- Witness for C5: a transport error on the fetch of the establish path is
returned unchanged, with no write performed. -/
theorem createConnectionClient_fetch_error_witness :
    createConnectionClient "terraform-1" dataDemo (Except.error ApiError.transport)
        (fun _ => none) (Except.ok connDemo)
      = (dataDemo, some ApiError.transport,
          [Event.lock "conn1", Event.apiRead "conn1", Event.unlock "conn1"]) :=
  createConnectionClient_fetch_error_is_hard_failure.1 "terraform-1" dataDemo
    ApiError.transport (fun _ => none) (Except.ok connDemo)

/-- Witness for the amended C8: on a concrete successful run the unlock is
the last event and no read follows it. -/
theorem createConnectionClient_unlock_last_witness :
    ((createConnectionClient "terraform-1" dataDemo (Except.ok connDemo)
        (fun _ => none) (Except.ok connDemo)).2.2).getLast?
      = some (Event.unlock "conn1") ∧
    readAfterUnlock "conn1"
        (createConnectionClient "terraform-1" dataDemo (Except.ok connDemo)
          (fun _ => none) (Except.ok connDemo)).2.2
      = false :=
  createConnectionClient_unlock_after_confirm_read "terraform-1" dataDemo
    (Except.ok connDemo) (fun _ => none) (Except.ok connDemo)
